import Mathlib

/-!
Verification of `src/dynamicsutilities.py`: the `dtex` equation formatter.

`dtex(*args)` builds a LaTeX markup string by appending, for each argument,
`f'${x}$ $\, = \,$ '` — where `x` is the argument itself when it is a `str`,
and `mlatex(arg)` otherwise — then trims the last 10 characters
(`tex = tex[:-10]`) and calls `display(Latex(tex))`.

The embedding below is parametric in the external conversion facility
`conv` (SymPy's `mlatex`), which may fail, mirroring a Python exception
with `Except`.  The result of `dtex` records the sequence of strings handed
to the external display facility: `Except.ok l` means the call completed and
`l` lists the display invocations in order (Python returns `None`, so the
invocations are the whole observable behaviour); `Except.error e` means the
exception `e` propagated to the caller and `display` was never reached.
Python string slicing acts on code points, as does `String.data` here.
-/

namespace DynamicsUtilities

/-- An argument to `dtex`: either a Python `str`, or any other value (a
SymPy expression, of abstract type `α`) that the external conversion
facility must handle. -/
inductive Arg (α : Type) where
  | str : String → Arg α
  | sym : α → Arg α
deriving DecidableEq

/-- The text interpolated into the f-string for one argument: a `str`
argument is used verbatim (the `isinstance(arg, str)` branch, line 24-26);
any other argument goes through the external conversion `conv`
(`mlatex(arg)`, line 27-29), which may raise. -/
def renderArg {α ε : Type} (conv : α → Except ε String) : Arg α → Except ε String
  | Arg.str s => Except.ok s
  | Arg.sym e => conv e

/-- The number of trailing characters removed by `tex[:-10]` (line 32). -/
def trimLen : Nat := 10

/-- Python's slice `s[:-n]` on code points, for `n ≥ 1`: drop the last `n`
characters, yielding the empty string when `s` has at most `n` characters. -/
def pySliceDrop (s : String) (n : Nat) : String :=
  String.mk (s.data.take (s.data.length - n))

/-- The accumulation loop of `dtex` (lines 22-29): `tex` is the accumulator;
each argument appends `f'${x}$ $\, = \,$ '` with `x` its rendering.  A
conversion failure aborts the loop at that argument, as a Python exception
would. -/
def buildTexAux {α ε : Type} (conv : α → Except ε String) (tex : String) :
    List (Arg α) → Except ε String
  | [] => Except.ok tex
  | a :: rest =>
    match renderArg conv a with
    | Except.error err => Except.error err
    | Except.ok x => buildTexAux conv (tex ++ ("$" ++ x ++ "$ $\\, = \\,$ ")) rest

/-- `dtex(*args)` (lines 21-33): build the markup, trim the last 10
characters, hand the result to `display(Latex(·))`.  The returned list
records the display-facility invocations in order; an `Except.error` means
the exception propagated and `display` was never invoked. -/
def dtex {α ε : Type} (conv : α → Except ε String) (args : List (Arg α)) :
    Except ε (List String) :=
  match buildTexAux conv "" args with
  | Except.error err => Except.error err
  | Except.ok tex => Except.ok [pySliceDrop tex trimLen]

/-- Stand-in conversion facility for calls whose arguments are all strings;
it is never reached on such calls. -/
def noSym : Empty → Except String String := fun e => e.elim

/-- `dtex` restricted to string arguments. -/
def dtexS (ss : List String) : Except String (List String) :=
  dtex noSym (ss.map Arg.str)

/-- A math-delimited fragment `$s$`. -/
def fragS (s : String) : String := "$" ++ s ++ "$"

/-- The equals-sign separator ` $\, = \,$ ` that stands between consecutive
fragments (eleven characters, including both surrounding spaces). -/
def eqSep : String := " $\\, = \\,$ "

/-- Modelled from the spec: "N argument renderings joined pairwise by a
fixed equals-sign separator, with no trailing separator after the last
argument". -/
def joinedFrags : List String → String
  | [] => ""
  | [s] => fragS s
  | s :: r :: rest => fragS s ++ eqSep ++ joinedFrags (r :: rest)

/-- The markup accumulated by the loop for string arguments, before the
trim: one `$s$` + separator block per argument. -/
def preTex : List String → String
  | [] => ""
  | s :: rest => ("$" ++ s ++ "$ $\\, = \\,$ ") ++ preTex rest

end DynamicsUtilities

deriving instance DecidableEq for Except

namespace DynamicsUtilities

/-- The per-argument block `f'${x}$ $\, = \,$ '` is the math fragment `$x$`
followed by the eleven-character separator. -/
theorem piece_eq (s : String) :
    "$" ++ s ++ "$ $\\, = \\,$ " = fragS s ++ eqSep := by
  have h : ("$ $\\, = \\,$ " : String) = "$" ++ eqSep := by decide
  simp [h, fragS, String.append_assoc]

/-- The loop accumulator factors out of `buildTexAux` as a prefix. -/
theorem buildTexAux_acc {α ε : Type} (conv : α → Except ε String)
    (args : List (Arg α)) : ∀ acc : String,
    buildTexAux conv acc args =
      (buildTexAux conv "" args).map (fun r => acc ++ r) := by
  induction args with
  | nil =>
    intro acc
    simp [buildTexAux, Except.map, String.append_empty]
  | cons a rest ih =>
    intro acc
    cases h : renderArg conv a with
    | error err => simp [buildTexAux, h, Except.map]
    | ok x =>
      simp only [buildTexAux, h]
      rw [ih, ih ("" ++ ("$" ++ x ++ "$ $\\, = \\,$ "))]
      cases buildTexAux conv "" rest with
      | error e => simp [Except.map]
      | ok t => simp [Except.map, String.empty_append, String.append_assoc]

/-- On string arguments the loop never consults the conversion facility and
produces `preTex`. -/
theorem buildTexAux_strings {α ε : Type} (conv : α → Except ε String) :
    ∀ ss : List String,
    buildTexAux conv "" (ss.map Arg.str) = Except.ok (preTex ss) := by
  intro ss
  induction ss with
  | nil => rfl
  | cons s rest ih =>
    show buildTexAux conv ("" ++ ("$" ++ s ++ "$ $\\, = \\,$ ")) (rest.map Arg.str) = _
    rw [buildTexAux_acc, ih]
    simp [Except.map, preTex, String.empty_append]

/-- For a nonempty argument list, the pre-trim markup is the joined
fragments followed by one full trailing separator. -/
theorem preTex_eq_joined : ∀ ss : List String, ss ≠ [] →
    preTex ss = joinedFrags ss ++ eqSep := by
  intro ss
  induction ss with
  | nil => intro h; exact absurd rfl h
  | cons s rest ih =>
    intro _
    cases rest with
    | nil => simp [preTex, joinedFrags, piece_eq, String.append_empty]
    | cons r rs =>
      show ("$" ++ s ++ "$ $\\, = \\,$ ") ++ preTex (r :: rs) = _
      rw [ih (by simp), piece_eq, joinedFrags]
      simp [String.append_assoc]

/-- Trimming the last ten characters from a string ending in the
eleven-character separator leaves the string followed by one space. -/
theorem pySliceDrop_sep (x : String) :
    pySliceDrop (x ++ eqSep) trimLen = x ++ " " := by
  apply String.ext
  have hsep : eqSep.data = [' ', '$', '\\', ',', ' ', '=', ' ', '\\', ',', '$', ' '] := by
    decide
  show ((x ++ eqSep).data).take ((x ++ eqSep).data.length - trimLen) = (x ++ " ").data
  rw [String.data_append, String.data_append, hsep]
  have hlen : (x.data ++ [' ', '$', '\\', ',', ' ', '=', ' ', '\\', ',', '$', ' ']).length -
      trimLen = x.data.length + 1 := by
    simp [trimLen]
  rw [hlen, List.take_append_eq_append_take,
    List.take_of_length_le (by omega)]
  have h1 : x.data.length + 1 - x.data.length = 1 := by omega
  rw [h1]
  have h2 : (" " : String).data = [' '] := by decide
  rw [h2]
  rfl

/-- For a nonempty list of string arguments, the single displayed string is
the joined fragments followed by exactly one trailing space. -/
theorem dtex_strings {α ε : Type} (conv : α → Except ε String)
    (ss : List String) (h : ss ≠ []) :
    dtex conv (ss.map Arg.str) = Except.ok [joinedFrags ss ++ " "] := by
  have hb := buildTexAux_strings conv ss
  simp only [dtex, hb]
  rw [preTex_eq_joined ss h, pySliceDrop_sep]

/-- `dtexS` version of `dtex_strings`. -/
theorem dtexS_strings (ss : List String) (h : ss ≠ []) :
    dtexS ss = Except.ok [joinedFrags ss ++ " "] :=
  dtex_strings noSym ss h

/-- The loop splits over list append as sequential composition: the second
half starts from the markup accumulated by the first. -/
theorem buildTexAux_append {α ε : Type} (conv : α → Except ε String)
    (l₁ l₂ : List (Arg α)) : ∀ acc : String,
    buildTexAux conv acc (l₁ ++ l₂) =
      (buildTexAux conv acc l₁).bind (fun t => buildTexAux conv t l₂) := by
  induction l₁ with
  | nil => intro acc; rfl
  | cons a rest ih =>
    intro acc
    cases h : renderArg conv a with
    | error err => simp [buildTexAux, h, Except.bind]
    | ok x =>
      simp only [List.cons_append, buildTexAux, h]
      exact ih _

/-- If every non-string argument converts successfully, the loop finishes
with some markup string. -/
theorem buildTexAux_total {α ε : Type} (conv : α → Except ε String)
    (args : List (Arg α))
    (h : ∀ e : α, Arg.sym e ∈ args → ∃ t, conv e = Except.ok t) :
    ∀ acc : String, ∃ t, buildTexAux conv acc args = Except.ok t := by
  induction args with
  | nil => intro acc; exact ⟨acc, rfl⟩
  | cons a rest ih =>
    intro acc
    have hrest : ∀ e : α, Arg.sym e ∈ rest → ∃ t, conv e = Except.ok t :=
      fun e he => h e (List.mem_cons_of_mem a he)
    cases a with
    | str s => exact ih hrest _
    | sym e =>
      obtain ⟨t, ht⟩ := h e (List.mem_cons_self _ _)
      have : renderArg conv (Arg.sym e) = Except.ok t := ht
      simp only [buildTexAux, this]
      exact ih hrest _

/-- The renderings of an argument list under the conversion facility
`conv`: the text interpolated into the f-string for each argument, in
order, with the first conversion failure aborting the list as the loop
aborts. -/
def renderings {α ε : Type} (conv : α → Except ε String) :
    List (Arg α) → Except ε (List String)
  | [] => Except.ok []
  | a :: rest =>
    match renderArg conv a with
    | Except.error err => Except.error err
    | Except.ok x =>
      match renderings conv rest with
      | Except.error err => Except.error err
      | Except.ok xs => Except.ok (x :: xs)

/-- When all conversions succeed there is one rendering per argument. -/
theorem renderings_length {α ε : Type} (conv : α → Except ε String) :
    ∀ (args : List (Arg α)) (rs : List String),
    renderings conv args = Except.ok rs → rs.length = args.length := by
  intro args
  induction args with
  | nil =>
    intro rs h
    simp [renderings] at h
    subst h
    rfl
  | cons a rest ih =>
    intro rs h
    cases h1 : renderArg conv a with
    | error err => simp [renderings, h1] at h
    | ok x =>
      cases h2 : renderings conv rest with
      | error err => simp [renderings, h1, h2] at h
      | ok xs =>
        simp [renderings, h1, h2] at h
        subst h
        simp [ih xs h2]

/-- The loop's markup is `preTex` of the renderings: one `$x$` + separator
block per rendering, or the first conversion error. -/
theorem buildTexAux_renderings {α ε : Type} (conv : α → Except ε String) :
    ∀ args : List (Arg α),
    buildTexAux conv "" args = (renderings conv args).map preTex := by
  intro args
  induction args with
  | nil => rfl
  | cons a rest ih =>
    cases h1 : renderArg conv a with
    | error err => simp [buildTexAux, renderings, h1, Except.map]
    | ok x =>
      simp only [buildTexAux, renderings, h1]
      rw [buildTexAux_acc, ih]
      cases renderings conv rest with
      | error err => simp [Except.map]
      | ok xs => simp [Except.map, preTex, String.empty_append]

/-- For every nonempty call — text or symbolic arguments — whose
conversions succeed with renderings `rs`, the single displayed string is
the joined fragments over `rs` followed by exactly one trailing space. -/
theorem dtex_renders {α ε : Type} (conv : α → Except ε String)
    (args : List (Arg α)) (rs : List String)
    (h : renderings conv args = Except.ok rs) (hne : args ≠ []) :
    dtex conv args = Except.ok [joinedFrags rs ++ " "] := by
  have hrs : rs ≠ [] := by
    have hl := renderings_length conv args rs h
    intro hc
    subst hc
    exact hne (List.length_eq_zero.mp hl.symm)
  have hb : buildTexAux conv "" args = Except.ok (preTex rs) := by
    rw [buildTexAux_renderings, h]
    rfl
  simp only [dtex, hb]
  rw [preTex_eq_joined rs hrs, pySliceDrop_sep]

/-- C1 (counterexample): for the two string arguments `"a"` and `"b"`, the
string handed to the display facility is NOT exactly `$a$ $\, = \,$ $b$`:
the claimed value omits the trailing space the trim leaves behind. -/
theorem C1_counterexample :
    dtexS ["a", "b"] ≠ Except.ok ["$a$ $\\, = \\,$ $b$"] := by decide

/-- C1 (amended): for the two string arguments `"a"` and `"b"`, the string
handed to the display facility equals `$a$ $\, = \,$ $b$ ` — the claimed
string followed by exactly one trailing space. -/
theorem C1_two_strings :
    dtexS ["a", "b"] = Except.ok ["$a$ $\\, = \\,$ $b$ "] := rfl

/-- C2 (counterexample): for the single argument `"a"`, the displayed
string is not the bare join of the renderings (`joinedFrags ["a"] = "$a$"`);
a trailing space follows the last rendering. -/
theorem C2_counterexample :
    dtexS ["a"] ≠ Except.ok [joinedFrags ["a"]] := by decide

/-- C2 (amended): for every call with N ≥ 1 arguments — text or symbolic —
whose conversions succeed with renderings `rs`, the string handed to the
display facility is the N argument renderings joined pairwise by the
equals-sign separator with no trailing separator, followed by exactly one
trailing space character; there is exactly one rendering per argument. -/
theorem C2_joined_output {α ε : Type} (conv : α → Except ε String)
    (args : List (Arg α)) (rs : List String)
    (h : renderings conv args = Except.ok rs) (hne : args ≠ []) :
    dtex conv args = Except.ok [joinedFrags rs ++ " "] ∧
    rs.length = args.length :=
  ⟨dtex_renders conv args rs h hne, renderings_length conv args rs h⟩

/-- C2 witness at a concrete mixed call: one text and one symbolic
argument. -/
theorem C2_joined_output_witness :
    dtex (fun _ : Nat => (Except.ok "E" : Except String String))
        [Arg.str "x", Arg.sym 0] =
      Except.ok [joinedFrags ["x", "E"] ++ " "] ∧
    (["x", "E"] : List String).length =
      ([Arg.str "x", Arg.sym 0] : List (Arg Nat)).length :=
  C2_joined_output _ [Arg.str "x", Arg.sym 0] ["x", "E"] rfl (by decide)

/-- C3 (counterexample): for the single argument `"a"`, the naive trim does
NOT corrupt the final fragment: the displayed string is the intact fragment
`$a$` followed by a space (so no character of the fragment is lost, though
the result is not exactly `$a$`). -/
theorem C3_counterexample :
    dtexS ["a"] = Except.ok [fragS "a" ++ " "] ∧ fragS "a" ++ " " ≠ fragS "a" := by
  decide

/-- C3 (amended): the fixed trim length 10 is one LESS than the separator
suffix's literal length 11, so for the single argument `"a"` the fragment
survives intact and one character of the separator — its leading space —
remains: the displayed string is `$a$ `, not `$a$`. -/
theorem C3_trim_vs_suffix :
    eqSep.length = trimLen + 1 ∧ dtexS ["a"] = Except.ok [fragS "a" ++ " "] := by
  decide

/-- C4: for three arguments of either kind whose renderings are `r₁`, `r₂`,
`r₃`, the displayed string is the three math-delimited fragments in input
order joined by exactly two equals-sign separators (followed by the
trailing space); when no rendering contains `=`, the character `=` occurs
exactly twice in the displayed string. -/
theorem C4_three_args {α ε : Type} (conv : α → Except ε String)
    (a₁ a₂ a₃ : Arg α) (r₁ r₂ r₃ : String)
    (h₁ : renderArg conv a₁ = Except.ok r₁)
    (h₂ : renderArg conv a₂ = Except.ok r₂)
    (h₃ : renderArg conv a₃ = Except.ok r₃) :
    dtex conv [a₁, a₂, a₃] =
      Except.ok [fragS r₁ ++ eqSep ++ fragS r₂ ++ eqSep ++ fragS r₃ ++ " "] ∧
    (('=' ∉ r₁.data ∧ '=' ∉ r₂.data ∧ '=' ∉ r₃.data) →
      List.count '='
        (fragS r₁ ++ eqSep ++ fragS r₂ ++ eqSep ++ fragS r₃ ++ " ").data = 2) := by
  constructor
  · have hr : renderings conv [a₁, a₂, a₃] = Except.ok [r₁, r₂, r₃] := by
      simp [renderings, h₁, h₂, h₃]
    have h := dtex_renders conv [a₁, a₂, a₃] [r₁, r₂, r₃] hr (by simp)
    rw [h]
    simp [joinedFrags, String.append_assoc]
  · rintro ⟨ha, hb, hc⟩
    have hd : ("$" : String).data = ['$'] := by decide
    have hsep : List.count '=' eqSep.data = 1 := by decide
    have hsp : List.count '=' (" " : String).data = 0 := by decide
    simp [fragS, String.data_append, List.count_append, hd, hsep, hsp,
      List.count_eq_zero.mpr ha, List.count_eq_zero.mpr hb,
      List.count_eq_zero.mpr hc]

/-- C4 witness at a concrete mixed call: text, symbolic, text. -/
theorem C4_three_args_witness :
    dtex (fun _ : Nat => (Except.ok "E" : Except String String))
        [Arg.str "a", Arg.sym 0, Arg.str "c"] =
      Except.ok [fragS "a" ++ eqSep ++ fragS "E" ++ eqSep ++ fragS "c" ++ " "] ∧
    List.count '='
      (fragS "a" ++ eqSep ++ fragS "E" ++ eqSep ++ fragS "c" ++ " ").data = 2 :=
  ⟨(C4_three_args (fun _ : Nat => (Except.ok "E" : Except String String))
      (Arg.str "a") (Arg.sym 0) (Arg.str "c") "a" "E" "c" rfl rfl rfl).1,
   (C4_three_args (fun _ : Nat => (Except.ok "E" : Except String String))
      (Arg.str "a") (Arg.sym 0) (Arg.str "c") "a" "E" "c" rfl rfl rfl).2
     ⟨by decide, by decide, by decide⟩⟩

/-- C5: for zero arguments the behaviour is deterministic: the loop leaves
`tex` empty, `tex[:-10]` of the empty string is the empty string, and the
display facility is invoked once with the empty string; no error is
raised (the result is `Except.ok`, whatever the conversion facility). -/
theorem C5_zero_args {α ε : Type} (conv : α → Except ε String) :
    dtex conv [] = Except.ok [""] := rfl

/-- C6: a string argument is rendered verbatim — the conversion facility is
never consulted (`renderArg` returns the string itself for any `conv`), and
its contribution to the markup is exactly its own characters wrapped in
math delimiters, `$s$`, followed by the separator, whatever the remaining
arguments are. -/
theorem C6_string_verbatim {α ε : Type} (conv : α → Except ε String)
    (s : String) (rest : List (Arg α)) :
    renderArg conv (Arg.str s) = Except.ok s ∧
    buildTexAux conv "" (Arg.str s :: rest) =
      (buildTexAux conv "" rest).map (fun r => fragS s ++ eqSep ++ r) := by
  refine ⟨rfl, ?_⟩
  show buildTexAux conv ("" ++ ("$" ++ s ++ "$ $\\, = \\,$ ")) rest = _
  rw [buildTexAux_acc]
  have h : ("" ++ ("$" ++ s ++ "$ $\\, = \\,$ ")) = fragS s ++ eqSep := by
    rw [String.empty_append, piece_eq]
  rw [h]

/-- C7: a non-string argument whose conversion succeeds with `t` contributes
the converted text wrapped in math delimiters, `$t$`, followed by the
separator, to the markup. -/
theorem C7_sym_converted {α ε : Type} (conv : α → Except ε String)
    (e : α) (t : String) (rest : List (Arg α)) (h : conv e = Except.ok t) :
    buildTexAux conv "" (Arg.sym e :: rest) =
      (buildTexAux conv "" rest).map (fun r => fragS t ++ eqSep ++ r) := by
  have hr : renderArg conv (Arg.sym e) = Except.ok t := h
  simp only [buildTexAux, hr]
  rw [buildTexAux_acc]
  have h2 : ("" ++ ("$" ++ t ++ "$ $\\, = \\,$ ")) = fragS t ++ eqSep := by
    rw [String.empty_append, piece_eq]
  rw [h2]

/-- C7 witness: a concrete conversion facility mapping every value to `"E"`,
applied to the single non-string argument `0`. -/
theorem C7_sym_converted_witness :
    buildTexAux (fun _ : Nat => (Except.ok "E" : Except String String)) ""
        [Arg.sym 0] =
      (buildTexAux (fun _ : Nat => (Except.ok "E" : Except String String)) ""
        ([] : List (Arg Nat))).map (fun r => fragS "E" ++ eqSep ++ r) :=
  C7_sym_converted _ 0 "E" [] rfl

/-- C8: if the conversion facility fails on an argument — after any prefix
of arguments, text or symbolic, whose conversions succeed — the error
propagates uncaught to the caller and the display facility is never
invoked: the result is `Except.error` with that very error, hence the
invocation list is empty — no retry, no fallback, no partial output. -/
theorem C8_conversion_failure {α ε : Type} (conv : α → Except ε String)
    (pre : List (Arg α)) (e : α) (rest : List (Arg α)) (err : ε)
    (hpre : ∀ x : α, Arg.sym x ∈ pre → ∃ t, conv x = Except.ok t)
    (h : conv e = Except.error err) :
    dtex conv (pre ++ Arg.sym e :: rest) = Except.error err := by
  obtain ⟨t, ht⟩ := buildTexAux_total conv pre hpre ""
  have hb : buildTexAux conv "" (pre ++ Arg.sym e :: rest) =
      Except.error err := by
    rw [buildTexAux_append, ht]
    have hr : renderArg conv (Arg.sym e) = Except.error err := h
    simp [Except.bind, buildTexAux, hr]
  simp [dtex, hb]

/-- C8 witness: a conversion facility that succeeds on `0` and fails on
`1` with `"unsupported"`; the failing symbolic argument follows a
successful symbolic one and a string one. -/
theorem C8_conversion_failure_witness :
    dtex (fun n : Nat =>
        if n = 0 then (Except.ok "E" : Except String String)
        else Except.error "unsupported")
      ([Arg.str "a", Arg.sym 0] ++ Arg.sym 1 :: ([] : List (Arg Nat))) =
      Except.error "unsupported" :=
  C8_conversion_failure _ [Arg.str "a", Arg.sym 0] 1 [] "unsupported"
    (by
      intro x hx
      simp [Arg.sym.injEq] at hx
      subst hx
      exact ⟨"E", rfl⟩)
    rfl

/-- C9: when every conversion succeeds, the call's entire observable effect
is exactly one invocation of the display facility with exactly one string
argument (the invocation list is a singleton; the function body yields no
other value). -/
theorem C9_single_display {α ε : Type} (conv : α → Except ε String)
    (args : List (Arg α))
    (h : ∀ e : α, Arg.sym e ∈ args → ∃ t, conv e = Except.ok t) :
    ∃ s : String, dtex conv args = Except.ok [s] := by
  obtain ⟨t, ht⟩ := buildTexAux_total conv args h ""
  exact ⟨pySliceDrop t trimLen, by simp [dtex, ht]⟩

/-- C9 witness: a mixed call with one string and one convertible argument. -/
theorem C9_single_display_witness :
    ∃ s : String,
      dtex (fun _ : Nat => (Except.ok "E" : Except String String))
        [Arg.str "a", Arg.sym 0] = Except.ok [s] :=
  C9_single_display _ [Arg.str "a", Arg.sym 0] (fun _ _ => ⟨"E", rfl⟩)

/-- C10: the per-argument suffix ` $\, = \,$ ` is 11 characters long while
the trim removes only 10, so for every call with N ≥ 1 arguments — text or
symbolic — whose conversions succeed with renderings `rs`, the displayed
string keeps every fragment intact and is, character for character, the
joined fragments over `rs` followed by exactly one trailing space. -/
theorem C10_trailing_space :
    eqSep.length = 11 ∧ trimLen = 10 ∧
    (∀ (α ε : Type) (conv : α → Except ε String) (args : List (Arg α))
      (rs : List String),
      renderings conv args = Except.ok rs → args ≠ [] →
      (dtex conv args).map (List.map String.data) =
        Except.ok [(joinedFrags rs).data ++ [' ']]) := by
  refine ⟨by decide, rfl, ?_⟩
  intro α ε conv args rs h hne
  rw [dtex_renders conv args rs h hne]
  have h2 : (" " : String).data = [' '] := by decide
  simp [Except.map, String.data_append, h2]

/-- C10 witness at a concrete call with a single symbolic argument,
exercising the conversion branch end to end. -/
theorem C10_trailing_space_witness :
    eqSep.length = 11 ∧ trimLen = 10 ∧
    (dtex (fun _ : Nat => (Except.ok "E" : Except String String))
        [Arg.sym 0]).map (List.map String.data) =
      Except.ok [(joinedFrags ["E"]).data ++ [' ']] :=
  ⟨C10_trailing_space.1, C10_trailing_space.2.1,
   C10_trailing_space.2.2 Nat String _ [Arg.sym 0] ["E"] rfl (by decide)⟩

end DynamicsUtilities
